import Mathlib

/-!
Shallow embedding of the process state synchronization and control-dispatch
layer of `src/ui/src/hooks/useProcesses.ts`.

The hook keeps two independently replaceable slots:

* `wsProcesses : ProjectProcesses[] | null` — the push-derived snapshot,
  written only by `handleProcessUpdate` (which stores `message.processes`)
  and by the kill-all mutation's `onSuccess` (which stores `[]`);
* `apiProcesses` — the `data` of the react-query poll, `undefined` until the
  first successful fetch, then the last successful fetch result.

The exposed view is `processes = wsProcesses ?? apiProcesses ?? []` and
`processCount = processes.reduce((sum, p) => sum + p.total_count, 0)`.

Each of the four command mutations calls
`queryClient.invalidateQueries({queryKey: ['processes']})` in `onSuccess`
and has no `onError` handler; the action wrappers `await … mutateAsync`,
so a failed transport call rejects through to the caller unchanged.

The embedding models the hook as a state machine: `ProcHookState` holds the
two slots, an `invalidated` flag (whether a forced refetch has been
requested), and the per-mutation `isPending` booleans.  Events are the
arrivals the hook reacts to: a WebSocket update, a successful poll fetch,
and the issue/settle pairs of the four mutations.
-/

namespace UseProcesses

/-- Status enum of `ProcessInfo` from `src/ui/src/lib/types.ts` as used by the UI:
one of `running`, `paused`, `stopped`. -/
inductive PStatus where
  | running
  | paused
  | stopped
deriving DecidableEq, Repr

/-- One OS process node: `pid`, `name`, `status`, `started_at` (ISO string)
and an owned ordered list of children, forming a tree. -/
inductive ProcessNode where
  | mk (pid : Int) (name : String) (status : PStatus) (started_at : String)
      (children : List ProcessNode)

/-- The children list of a node. -/
def ProcessNode.children : ProcessNode → List ProcessNode
  | .mk _ _ _ _ cs => cs

mutual

/-- Number of nodes in a tree, the node itself included. -/
def nodeCount : ProcessNode → Nat
  | .mk _ _ _ _ children => 1 + nodeListCount children

/-- Number of nodes in a forest. -/
def nodeListCount : List ProcessNode → Nat
  | [] => 0
  | n :: ns => nodeCount n + nodeListCount ns

end

/-- A project grouping (`ProjectProcesses`): its name, its root process trees, and the
backend-computed `total_count` of all nodes under the project. -/
structure ProjectProcesses where
  project_name : String
  processes : List ProcessNode
  total_count : Int

/-- A snapshot: the full-replacement unit exchanged by both polling and
push updates (`ProjectProcesses[]`). -/
abbrev Snapshot := List ProjectProcesses

/-- The WebSocket push message shape consumed by `handleProcessUpdate`. -/
structure WSProcessUpdateMessage where
  processes : Snapshot

/-- The state held by one `useProcesses()` instance:
  * `wsProcesses` — the `useState` slot, `none` = JS `null`;
  * `apiProcesses` — the query `data`, `none` = not yet fetched;
  * `invalidated` — whether `invalidateQueries` has been requested and the
    forced refetch has not yet completed;
  * `isKilling`, `isKillingAll`, `isPausing`, `isResuming` — the four
    mutations' `isPending` flags (only the first two are returned). -/
structure ProcHookState where
  wsProcesses : Option Snapshot
  apiProcesses : Option Snapshot
  invalidated : Bool
  isKilling : Bool
  isKillingAll : Bool
  isPausing : Bool
  isResuming : Bool

/-- The state on mount: no snapshot from either source, nothing in flight. -/
def initState : ProcHookState :=
  { wsProcesses := none
    apiProcesses := none
    invalidated := false
    isKilling := false
    isKillingAll := false
    isPausing := false
    isResuming := false }

/-- The exposed view: `const processes = wsProcesses ?? apiProcesses ?? []`. -/
def processes (s : ProcHookState) : Snapshot :=
  s.wsProcesses.getD (s.apiProcesses.getD [])

/-- The exposed count: `processes.reduce((sum, p) => sum + p.total_count, 0)`. -/
def processCount (s : ProcHookState) : Int :=
  (processes s).foldl (fun sum p => sum + p.total_count) 0

/-- Push handler `handleProcessUpdate`: `setWsProcesses(message.processes)`. -/
def handleProcessUpdate (s : ProcHookState) (message : WSProcessUpdateMessage) :
    ProcHookState :=
  { s with wsProcesses := some message.processes }

/-- The asynchronous arrivals the hook reacts to: a WebSocket update, a
successful poll fetch writing the query `data`, and the begin/end of each
mutation (`settle` carries the transport call's result). -/
inductive Event where
  | wsUpdate (message : WSProcessUpdateMessage)
  | pollSuccess (snapshot : Snapshot)
  | issueKill
  | settleKill (r : Except String Unit)
  | issueKillAll
  | settleKillAll (r : Except String Unit)
  | issuePause
  | settlePause (r : Except String Unit)
  | issueResume
  | settleResume (r : Except String Unit)

/-- One transition of the hook state.  A successful settle of any mutation
runs its `onSuccess`: `invalidateQueries` (modelled by `invalidated := true`),
and for kill-all also `setWsProcesses([])`.  A failed settle has no handler,
so only the mutation's `isPending` flag drops. -/
def step (s : ProcHookState) : Event → ProcHookState
  | .wsUpdate message => handleProcessUpdate s message
  | .pollSuccess snapshot =>
      { s with apiProcesses := some snapshot, invalidated := false }
  | .issueKill => { s with isKilling := true }
  | .settleKill (.ok _) => { s with isKilling := false, invalidated := true }
  | .settleKill (.error _) => { s with isKilling := false }
  | .issueKillAll => { s with isKillingAll := true }
  | .settleKillAll (.ok _) =>
      { s with isKillingAll := false, invalidated := true,
               wsProcesses := some [] }
  | .settleKillAll (.error _) => { s with isKillingAll := false }
  | .issuePause => { s with isPausing := true }
  | .settlePause (.ok _) => { s with isPausing := false, invalidated := true }
  | .settlePause (.error _) => { s with isPausing := false }
  | .issueResume => { s with isResuming := true }
  | .settleResume (.ok _) => { s with isResuming := false, invalidated := true }
  | .settleResume (.error _) => { s with isResuming := false }

/-- Run a sequence of events from a state, in arrival order. -/
def run (s : ProcHookState) (tr : List Event) : ProcHookState :=
  tr.foldl step s

/-- Action wrapper `killProcess(pid, force)`: issue the kill mutation, let the transport
call settle with result `r`, and return the new state together with what
the awaited `mutateAsync` promise delivers to the caller (`r` itself —
there is no catch in the wrapper). -/
def killProcess (s : ProcHookState) (pid : Int) (force : Bool)
    (r : Except String Unit) : ProcHookState × Except String Unit :=
  (step (step s .issueKill) (.settleKill r), r)

/-- Action wrapper `killAllProcesses(force)`: issue, settle with `r`, propagate `r`. -/
def killAllProcesses (s : ProcHookState) (force : Bool)
    (r : Except String Unit) : ProcHookState × Except String Unit :=
  (step (step s .issueKillAll) (.settleKillAll r), r)

/-- Action wrapper `pauseProcess(pid)`: issue, settle with `r`, propagate `r`. -/
def pauseProcess (s : ProcHookState) (pid : Int)
    (r : Except String Unit) : ProcHookState × Except String Unit :=
  (step (step s .issuePause) (.settlePause r), r)

/-- Action wrapper `resumeProcess(pid)`: issue, settle with `r`, propagate `r`. -/
def resumeProcess (s : ProcHookState) (pid : Int)
    (r : Except String Unit) : ProcHookState × Except String Unit :=
  (step (step s .issueResume) (.settleResume r), r)

/-- Whether a push snapshot has ever been stored (JS: `wsProcesses !== null`). -/
def hasReceivedPush (s : ProcHookState) : Bool :=
  s.wsProcesses.isSome

/-- Whether any snapshot at all has been received from either source. -/
def hasReceivedAny (s : ProcHookState) : Bool :=
  s.wsProcesses.isSome || s.apiProcesses.isSome

/-- An event is an observation-only arrival: a push update or a poll
result, with no mutation activity. -/
def isObsEvent : Event → Bool
  | .wsUpdate _ => true
  | .pollSuccess _ => true
  | _ => false

/-- Fold one event into "the snapshot carried by the most recent push so
far" (`acc` is the value before the event). -/
def pushSel (acc : Option Snapshot) : Event → Option Snapshot
  | .wsUpdate message => some message.processes
  | _ => acc

/-- Fold one event into "the snapshot carried by the most recent poll so
far". -/
def pollSel (acc : Option Snapshot) : Event → Option Snapshot
  | .pollSuccess snapshot => some snapshot
  | _ => acc

/-- The snapshot of the most recent push update in a trace, if any. -/
def lastPush (tr : List Event) : Option Snapshot :=
  tr.foldl pushSel none

/-- The snapshot of the most recent poll result in a trace, if any. -/
def lastPoll (tr : List Event) : Option Snapshot :=
  tr.foldl pollSel none

/-- Sum of the backend-computed `total_count` fields over a snapshot. -/
def sumTotalCount (snap : Snapshot) : Int :=
  (snap.map ProjectProcesses.total_count).sum

/-- A snapshot is well formed when every project's `total_count` equals the
recursive node count of its trees. -/
def wellFormedSnapshot (snap : Snapshot) : Prop :=
  ∀ p ∈ snap, p.total_count = (nodeListCount p.processes : Int)

instance (snap : Snapshot) : Decidable (wellFormedSnapshot snap) :=
  List.decidableBAll _ snap

/-- Total number of `ProcessNode` instances across all trees of a snapshot,
descendants included. -/
def snapshotNodeCount (snap : Snapshot) : Nat :=
  (snap.map (fun p => nodeListCount p.processes)).sum

/-! ### Runtime model of `handleProcessUpdate`

TypeScript types are erased at runtime, so the `processes` field of an
incoming WebSocket message may fail to have the declared
`ProjectProcesses[]` shape.  `JSValue` models the runtime value of that
field: a real array of the right shape, `null`/`undefined`, or any other
value (string, number, non-array object).  `handleProcessUpdate` stores the
field with no validation, `??` skips only nullish values, and calling
`.reduce` on a non-array throws. -/

inductive JSValue where
  | arr (snapshot : Snapshot)
  | nullish
  | malformed (tag : String)

/-- A push message as it exists at runtime: its `processes` field is an
arbitrary value. -/
structure RTMessage where
  processes : JSValue

/-- The runtime view of the two slots: the `useState` slot holds whatever
was last stored (initially `null`), the query `data` is produced by the
typed fetch. -/
structure RTState where
  wsProcesses : JSValue
  apiProcesses : Option Snapshot

/-- Runtime state on mount. -/
def RTState.init : RTState :=
  { wsProcesses := .nullish, apiProcesses := none }

/-- The push handler at runtime: `setWsProcesses(message.processes)`,
storing the field unconditionally, whatever its shape. -/
def handleProcessUpdateRT (s : RTState) (message : RTMessage) : RTState :=
  { s with wsProcesses := message.processes }

/-- The view `wsProcesses ?? apiProcesses ?? []` at runtime: `??` falls through only
on `null`/`undefined`, so a malformed non-nullish value is returned as-is. -/
def processesRT (s : RTState) : JSValue :=
  match s.wsProcesses with
  | .nullish => .arr (s.apiProcesses.getD [])
  | v => v

/-- The count `processes.reduce((sum, p) => sum + p.total_count, 0)` at runtime:
throws a `TypeError` when `processes` is not an array. -/
def processCountRT (s : RTState) : Except String Int :=
  match processesRT s with
  | .arr snapshot => .ok (sumTotalCount snapshot)
  | _ => .error "TypeError: processes.reduce is not a function"

/-! ### Concrete data for witnesses and counterexamples

The snapshot from the spec's worked example: one project `demo` with a
running pid 1 whose single child is a running pid 2, `total_count` 2. -/

/-- pid 2, a leaf child. -/
def childNode : ProcessNode :=
  .mk 2 "child" .running "2024-01-01T00:00:01Z" []

/-- pid 1, root with one child. -/
def rootNode : ProcessNode :=
  .mk 1 "agent" .running "2024-01-01T00:00:00Z" [childNode]

/-- The `demo` project of the spec's example. -/
def demoProject : ProjectProcesses :=
  { project_name := "demo", processes := [rootNode], total_count := 2 }

/-- The spec's example snapshot. -/
def demoSnapshot : Snapshot := [demoProject]

/-- Whether an event begins or ends the kill-one mutation. -/
def touchesKillOne : Event → Bool
  | .issueKill => true
  | .settleKill _ => true
  | _ => false

/-- Whether an event begins or ends the kill-all mutation. -/
def touchesKillAll : Event → Bool
  | .issueKillAll => true
  | .settleKillAll _ => true
  | _ => false

/-- The reconciliation-store portion of the state is unchanged between `s`
and `t`: both slots and the invalidation flag agree. -/
def storeUntouched (s t : ProcHookState) : Prop :=
  t.wsProcesses = s.wsProcesses ∧ t.apiProcesses = s.apiProcesses ∧
    t.invalidated = s.invalidated

/-! ### Helper lemmas -/

/-- Over a trace of observation-only events, the two slots of the final
state are the fold of the per-source selectors over the trace. -/
theorem run_obs_slots (tr : List Event) :
    ∀ s : ProcHookState, (∀ e ∈ tr, isObsEvent e = true) →
      (run s tr).wsProcesses = tr.foldl pushSel s.wsProcesses ∧
      (run s tr).apiProcesses = tr.foldl pollSel s.apiProcesses := by
  induction tr with
  | nil => intro s _; exact ⟨rfl, rfl⟩
  | cons e rest ih =>
      intro s h
      have he : isObsEvent e = true := h e (List.mem_cons_self e rest)
      have hrest : ∀ e' ∈ rest, isObsEvent e' = true :=
        fun e' he' => h e' (List.mem_cons_of_mem e he')
      cases e
      case wsUpdate message =>
        simpa [run, step, handleProcessUpdate, pushSel, pollSel]
          using ih (step s (.wsUpdate message)) hrest
      case pollSuccess snapshot =>
        simpa [run, step, pushSel, pollSel]
          using ih (step s (.pollSuccess snapshot)) hrest
      all_goals simp [isObsEvent] at he

/-- Poll arrivals never write the push-derived slot. -/
theorem run_polls_preserves_ws (polls : List Snapshot) :
    ∀ s : ProcHookState,
      (run s (polls.map Event.pollSuccess)).wsProcesses = s.wsProcesses := by
  induction polls with
  | nil => intro s; rfl
  | cons snap rest ih =>
      intro s
      simpa [run, step] using ih (step s (.pollSuccess snap))

/-- Folding the reducer of `processCount` from accumulator `a` adds the
snapshot's total to `a`. -/
theorem foldl_add_totals (snap : Snapshot) :
    ∀ a : Int, snap.foldl (fun sum p => sum + p.total_count) a
      = a + sumTotalCount snap := by
  induction snap with
  | nil => intro a; simp [sumTotalCount]
  | cons p rest ih =>
      intro a
      rw [List.foldl_cons, ih]
      simp [sumTotalCount]
      ring

/-! ### Claim theorems -/

/-- C1: over any sequence of push-snapshot applications and poll-snapshot
arrivals, the exposed view equals the most recent push snapshot if a push
has ever been applied, else the most recent poll snapshot, else the empty
sequence; in particular a poll arriving after the first push never replaces
the push-derived view. -/
theorem view_eq_lastPush_else_lastPoll (tr : List Event)
    (h : ∀ e ∈ tr, isObsEvent e = true) :
    processes (run initState tr) = (lastPush tr).getD ((lastPoll tr).getD []) ∧
    ∀ snapshot : Snapshot, lastPush tr ≠ none →
      processes (run initState (tr ++ [.pollSuccess snapshot]))
        = processes (run initState tr) := by
  have hws : (run initState tr).wsProcesses = lastPush tr := by
    simpa [initState, lastPush] using (run_obs_slots tr initState h).1
  have hapi : (run initState tr).apiProcesses = lastPoll tr := by
    simpa [initState, lastPoll] using (run_obs_slots tr initState h).2
  refine ⟨by simp [processes, hws, hapi], ?_⟩
  intro snapshot hp
  have h' : ∀ e ∈ tr ++ [Event.pollSuccess snapshot], isObsEvent e = true := by
    intro e he
    rcases List.mem_append.mp he with h1 | h1
    · exact h e h1
    · simp at h1; subst h1; rfl
  have hws' : (run initState (tr ++ [Event.pollSuccess snapshot])).wsProcesses
      = lastPush (tr ++ [Event.pollSuccess snapshot]) := by
    simpa [initState, lastPush]
      using (run_obs_slots (tr ++ [Event.pollSuccess snapshot]) initState h').1
  have hlp : lastPush (tr ++ [Event.pollSuccess snapshot]) = lastPush tr := by
    simp [lastPush, List.foldl_append, pushSel]
  obtain ⟨p, hpp⟩ := Option.ne_none_iff_exists'.mp hp
  simp [processes, hws', hlp, hpp, hws]

/-- Witness for C1 at the concrete trace: push of the demo snapshot, then a
poll returning the empty snapshot; the view is the push snapshot. -/
theorem view_eq_lastPush_else_lastPoll_witness :
    (∀ e ∈ [Event.wsUpdate ⟨demoSnapshot⟩, Event.pollSuccess []],
      isObsEvent e = true) ∧
    processes (run initState [Event.wsUpdate ⟨demoSnapshot⟩, Event.pollSuccess []])
      = (lastPush [Event.wsUpdate ⟨demoSnapshot⟩, Event.pollSuccess []]).getD
          ((lastPoll [Event.wsUpdate ⟨demoSnapshot⟩, Event.pollSuccess []]).getD []) :=
  ⟨by intro e he; fin_cases he <;> rfl,
   (view_eq_lastPush_else_lastPoll
     [Event.wsUpdate ⟨demoSnapshot⟩, Event.pollSuccess []]
     (by intro e he; fin_cases he <;> rfl)).1⟩

/-- C2: a `killAllProcesses` call that settles successfully leaves the view
equal to the empty sequence, before any further poll or push arrives. -/
theorem killAll_success_empties_view (s : ProcHookState) (force : Bool) :
    processes (killAllProcesses s force (.ok ())).1 = [] := rfl

/-- C3: a `killAllProcesses` call that fails leaves the view (and both
slots) exactly as before the call; the clear lives only in `onSuccess`. -/
theorem killAll_failure_view_unchanged (s : ProcHookState) (force : Bool)
    (e : String) :
    processes (killAllProcesses s force (.error e)).1 = processes s ∧
    (killAllProcesses s force (.error e)).1.wsProcesses = s.wsProcesses ∧
    (killAllProcesses s force (.error e)).1.apiProcesses = s.apiProcesses :=
  ⟨rfl, rfl, rfl⟩

/-- C4: each of the four commands invalidates the query on success, and on
failure leaves the store (both slots and the invalidation flag) untouched
while propagating the error to the caller. -/
theorem commands_invalidate_on_success_propagate_on_failure
    (s : ProcHookState) (pid : Int) (force : Bool) (e : String) :
    ((killProcess s pid force (.ok ())).1.invalidated = true ∧
      (killProcess s pid force (.ok ())).2 = .ok ()) ∧
    ((killAllProcesses s force (.ok ())).1.invalidated = true ∧
      (killAllProcesses s force (.ok ())).2 = .ok ()) ∧
    ((pauseProcess s pid (.ok ())).1.invalidated = true ∧
      (pauseProcess s pid (.ok ())).2 = .ok ()) ∧
    ((resumeProcess s pid (.ok ())).1.invalidated = true ∧
      (resumeProcess s pid (.ok ())).2 = .ok ()) ∧
    (storeUntouched s (killProcess s pid force (.error e)).1 ∧
      (killProcess s pid force (.error e)).2 = .error e) ∧
    (storeUntouched s (killAllProcesses s force (.error e)).1 ∧
      (killAllProcesses s force (.error e)).2 = .error e) ∧
    (storeUntouched s (pauseProcess s pid (.error e)).1 ∧
      (pauseProcess s pid (.error e)).2 = .error e) ∧
    (storeUntouched s (resumeProcess s pid (.error e)).1 ∧
      (resumeProcess s pid (.error e)).2 = .error e) :=
  ⟨⟨rfl, rfl⟩, ⟨rfl, rfl⟩, ⟨rfl, rfl⟩, ⟨rfl, rfl⟩,
   ⟨⟨rfl, rfl, rfl⟩, rfl⟩, ⟨⟨rfl, rfl, rfl⟩, rfl⟩,
   ⟨⟨rfl, rfl, rfl⟩, rfl⟩, ⟨⟨rfl, rfl, rfl⟩, rfl⟩⟩

/-- C5: in every state `processCount` is the sum of `total_count` over the
current view, and on a well-formed snapshot that sum is the total number of
`ProcessNode` instances across all trees, descendants included. -/
theorem processCount_eq_sum_and_wellFormed_eq_nodes :
    (∀ s : ProcHookState, processCount s = sumTotalCount (processes s)) ∧
    (∀ snap : Snapshot, wellFormedSnapshot snap →
      sumTotalCount snap = (snapshotNodeCount snap : Int)) := by
  constructor
  · intro s
    unfold processCount
    rw [foldl_add_totals]
    ring
  · intro snap
    induction snap with
    | nil => intro _; simp [sumTotalCount, snapshotNodeCount]
    | cons p rest ih =>
        intro hwf
        have hp := hwf p (List.mem_cons_self p rest)
        have hrest : wellFormedSnapshot rest :=
          fun q hq => hwf q (List.mem_cons_of_mem p hq)
        have h1 : sumTotalCount (p :: rest)
            = p.total_count + sumTotalCount rest := by simp [sumTotalCount]
        have h2 : snapshotNodeCount (p :: rest)
            = nodeListCount p.processes + snapshotNodeCount rest := by
          simp [snapshotNodeCount]
        rw [h1, h2, hp, ih hrest]
        push_cast
        ring

/-- Witness for C5 on the spec's worked example: the demo snapshot is well
formed, its total sum is 2, matching its node count. -/
theorem processCount_eq_sum_and_wellFormed_eq_nodes_witness :
    processCount { initState with wsProcesses := some demoSnapshot }
      = sumTotalCount
          (processes { initState with wsProcesses := some demoSnapshot }) ∧
    sumTotalCount demoSnapshot = (snapshotNodeCount demoSnapshot : Int) ∧
    sumTotalCount demoSnapshot = 2 :=
  ⟨processCount_eq_sum_and_wellFormed_eq_nodes.1 _,
   processCount_eq_sum_and_wellFormed_eq_nodes.2 demoSnapshot
     (by
       intro p hp
       simp only [demoSnapshot, List.mem_singleton] at hp
       subst hp
       simp [demoProject, rootNode, childNode, nodeListCount, nodeCount]),
   rfl⟩

/-- C6 counterexample: after a valid push of the demo snapshot, a malformed
push message (whose `processes` field is a plain string) is not discarded —
it replaces the view and makes `processCount` throw instead of leaving the
store intact. -/
theorem malformed_push_not_noop_counterexample :
    processesRT (handleProcessUpdateRT
        (handleProcessUpdateRT RTState.init ⟨.arr demoSnapshot⟩)
        ⟨.malformed "status-string"⟩)
      ≠ processesRT (handleProcessUpdateRT RTState.init ⟨.arr demoSnapshot⟩) ∧
    processCountRT (handleProcessUpdateRT
        (handleProcessUpdateRT RTState.init ⟨.arr demoSnapshot⟩)
        ⟨.malformed "status-string"⟩)
      = .error "TypeError: processes.reduce is not a function" ∧
    processCountRT (handleProcessUpdateRT RTState.init ⟨.arr demoSnapshot⟩)
      = .ok 2 := by
  refine ⟨?_, rfl, rfl⟩
  intro h
  have h' : JSValue.malformed "status-string" = JSValue.arr demoSnapshot := h
  exact JSValue.noConfusion h'

/-- C6 amended: `handleProcessUpdate` performs no shape validation — it
stores the message's `processes` field unconditionally; a non-array,
non-nullish field becomes the view and makes `processCount` throw a
`TypeError`, and a nullish field silently drops the push-derived slot back
to the poll fallback. -/
theorem malformed_push_stored_unvalidated (s : RTState) (message : RTMessage) :
    (handleProcessUpdateRT s message).wsProcesses = message.processes ∧
    (∀ tag : String, message.processes = .malformed tag →
      processCountRT (handleProcessUpdateRT s message)
        = .error "TypeError: processes.reduce is not a function") ∧
    (message.processes = .nullish →
      processesRT (handleProcessUpdateRT s message)
        = .arr (s.apiProcesses.getD [])) := by
  refine ⟨rfl, ?_, ?_⟩
  · intro tag htag
    simp [processCountRT, processesRT, handleProcessUpdateRT, htag]
  · intro hnull
    simp [processesRT, handleProcessUpdateRT, hnull]

/-- Witness for the amended C6 at a concrete malformed message. -/
theorem malformed_push_stored_unvalidated_witness :
    (handleProcessUpdateRT RTState.init ⟨.malformed "oops"⟩).wsProcesses
      = JSValue.malformed "oops" ∧
    processCountRT (handleProcessUpdateRT RTState.init ⟨.malformed "oops"⟩)
      = .error "TypeError: processes.reduce is not a function" :=
  ⟨(malformed_push_stored_unvalidated RTState.init ⟨.malformed "oops"⟩).1,
   (malformed_push_stored_unvalidated RTState.init ⟨.malformed "oops"⟩).2.1
     "oops" rfl⟩

/-- C7 counterexample: with the demo snapshot pushed, merely issuing
kill-all (before the backend confirms) leaves the view non-empty — the
clear is not applied at issue time. -/
theorem issue_killAll_does_not_clear_counterexample :
    processes (step (step initState (.wsUpdate ⟨demoSnapshot⟩)) .issueKillAll)
      ≠ [] :=
  fun h => List.cons_ne_nil demoProject [] h

/-- C7 amended: the kill-all clear is applied only when the call's success
is observed: issuing the command leaves the view unchanged while the
request is in flight, and the view becomes empty at the success settle. -/
theorem killAll_clear_on_success_not_at_issue (s : ProcHookState) :
    processes (step s .issueKillAll) = processes s ∧
    processes (step s (.settleKillAll (.ok ()))) = [] :=
  ⟨rfl, rfl⟩

/-- C8: an empty push snapshot yields the empty view without falling back
to the poll slot, and the never-received state is tracked separately from
emptiness (the freshly pushed state records a received push, while the
initial state has received nothing yet shows the same empty view). -/
theorem empty_push_distinct_from_never_received (s : ProcHookState) :
    processes (handleProcessUpdate s ⟨[]⟩) = [] ∧
    hasReceivedPush (handleProcessUpdate s ⟨[]⟩) = true ∧
    hasReceivedAny initState = false ∧
    processes initState = [] :=
  ⟨rfl, rfl, rfl, rfl⟩

/-- C9: the kill-one and kill-all in-flight booleans are tracked
independently: issuing/settling one sets/clears exactly its own flag and
leaves the other unchanged, and events not touching a mutation leave its
flag unchanged. -/
theorem kill_flags_independent (s : ProcHookState) :
    ((step s .issueKill).isKilling = true ∧
      (step s .issueKill).isKillingAll = s.isKillingAll) ∧
    (∀ r, (step s (.settleKill r)).isKilling = false ∧
      (step s (.settleKill r)).isKillingAll = s.isKillingAll) ∧
    ((step s .issueKillAll).isKillingAll = true ∧
      (step s .issueKillAll).isKilling = s.isKilling) ∧
    (∀ r, (step s (.settleKillAll r)).isKillingAll = false ∧
      (step s (.settleKillAll r)).isKilling = s.isKilling) ∧
    (∀ e, touchesKillOne e = false → (step s e).isKilling = s.isKilling) ∧
    (∀ e, touchesKillAll e = false →
      (step s e).isKillingAll = s.isKillingAll) := by
  refine ⟨⟨rfl, rfl⟩, ?_, ⟨rfl, rfl⟩, ?_, ?_, ?_⟩
  · intro r; cases r <;> exact ⟨rfl, rfl⟩
  · intro r; cases r <;> exact ⟨rfl, rfl⟩
  · intro e he
    cases e with
    | wsUpdate message => rfl
    | pollSuccess snapshot => rfl
    | issueKill => simp [touchesKillOne] at he
    | settleKill r => simp [touchesKillOne] at he
    | issueKillAll => rfl
    | settleKillAll r => cases r <;> rfl
    | issuePause => rfl
    | settlePause r => cases r <;> rfl
    | issueResume => rfl
    | settleResume r => cases r <;> rfl
  · intro e he
    cases e with
    | wsUpdate message => rfl
    | pollSuccess snapshot => rfl
    | issueKill => rfl
    | settleKill r => cases r <;> rfl
    | issueKillAll => simp [touchesKillAll] at he
    | settleKillAll r => simp [touchesKillAll] at he
    | issuePause => rfl
    | settlePause r => cases r <;> rfl
    | issueResume => rfl
    | settleResume r => cases r <;> rfl

/-- Witness for C9: concrete checks that issuing pause leaves `isKilling`
alone, issuing kill leaves `isKillingAll` alone, and issuing kill raises
`isKilling`. -/
theorem kill_flags_independent_witness :
    touchesKillOne Event.issuePause = false ∧
    (step initState Event.issuePause).isKilling = initState.isKilling ∧
    touchesKillAll Event.issueKill = false ∧
    (step initState Event.issueKill).isKillingAll = initState.isKillingAll ∧
    (step initState Event.issueKill).isKilling = true :=
  ⟨rfl, (kill_flags_independent initState).2.2.2.2.1 Event.issuePause rfl,
   rfl, (kill_flags_independent initState).2.2.2.2.2 Event.issueKill rfl,
   (kill_flags_independent initState).1.1⟩

/-- C10: a successful kill-all writes the empty snapshot into the
push-derived slot itself, so every subsequent poll is ignored and the view
stays empty until a new push arrives — from any prior state, including one
that never saw a push. -/
theorem killAll_success_blocks_polls (s : ProcHookState)
    (polls : List Snapshot) :
    (step s (.settleKillAll (.ok ()))).wsProcesses = some [] ∧
    processes (run (step s (.settleKillAll (.ok ())))
        (polls.map Event.pollSuccess)) = [] := by
  refine ⟨rfl, ?_⟩
  have h : (run (step s (.settleKillAll (.ok ())))
      (polls.map Event.pollSuccess)).wsProcesses = some [] := by
    rw [run_polls_preserves_ws polls (step s (.settleKillAll (.ok ())))]
    rfl
  simp [processes, h]

end UseProcesses
